import Mathlib

/-!
Shallow embedding of the aimharder-sync core (Go) in Lean 4, together with
theorems settling the spec claims about it.

Conventions of the embedding:
* Go `map[string][]SyncStatus` is modelled as a total function
  `String → List SyncStatus` whose default value is `[]` (Go's zero value for
  a missing key, which is exactly how `isWorkoutSynced` treats a missing key).
* Go `time.Duration` values are modelled in whole seconds (the code only ever
  works at second granularity: `duration.Seconds()` is truncated to `int`).
* Go `time.Time` instants are modelled as integer epoch seconds; formatted
  date strings that the code merely copies into output are carried as
  pre-rendered string fields.
* Go `float64` arithmetic is modelled exactly over `ℚ`; `int(x)` conversion
  (truncation toward zero) is `fTrunc`.
* Go strings are Lean `String`s; the byte-level operations used by the code
  are ASCII-only, so character-level modelling coincides with the source.
-/

namespace AimharderSync

/-! ## Data model (internal/models, reconstructed from its uses in src) -/

/-- One recorded sync attempt (`models.SyncStatus`).  `syncedAt` (a wall-clock
timestamp) is irrelevant to every claim and is omitted from the model. -/
structure SyncStatus where
  workoutID : String
  platform : String
  externalID : String
  success : Bool
  errorMessage : String
deriving DecidableEq, Repr

/-- Result of a workout (`models.WorkoutResult`), restricted to the fields the
generator and score parser read.  `time` is in seconds. -/
structure WorkoutResult where
  time : Option Nat := none
  rounds : Int := 0
  reps : Int := 0
  weight : ℚ := 0
  score : String := ""
  avgHeartRate : Int := 0
  maxHeartRate : Int := 0
  calories : Int := 0
deriving DecidableEq, Repr

/-- A workout (`models.Workout`), restricted to the fields the claims read.
`dateStr` is the `"2006-01-02"`-formatted date and `startEpoch` the instant
`getStartTime` computes, both carried pre-rendered. -/
structure Workout where
  id : String
  name : String
  dateStr : String
  classTime : String
  startEpoch : Int
  durationSec : Nat
  result : Option WorkoutResult := none
deriving DecidableEq, Repr

/-- The in-memory sync history: Go `map[string][]models.SyncStatus`. -/
def History : Type := String → List SyncStatus

/-! ## HistoryStore operations (src/Makefile lines 1124-1171, and the
identical `...InHistory` pair in src/unnamed/part_001 lines 350-373) -/

/-- `isWorkoutSynced`: a workout counts as synced when any recorded attempt
for it has `Success == true` (any-platform variant; `Platform` is ignored). -/
def isWorkoutSynced (history : History) (workoutID : String) : Bool :=
  (history workoutID).any (fun s => s.success)

/-- `recordSync`: append one attempt to the workout's history list.  The
platform is hard-coded `"strava"`; the reason string travels in the
`ErrorMessage` field even for successes. -/
def recordSync (history : History) (workoutID externalID : String)
    (success : Bool) (errorMsg : String) : History :=
  fun k =>
    if k = workoutID then
      history workoutID ++
        [{ workoutID := workoutID, platform := "strava",
           externalID := externalID, success := success,
           errorMessage := errorMsg }]
    else history k

/-- The need-sync filter of `runSync` (src/Makefile lines 469-474):
`if force || !isWorkoutSynced(history, w.ID) { toSync = append(toSync, w) }`.
(src/unnamed/part_001 lines 217-222 is the same loop with `force` fixed to
`false`.) -/
def filterToSync (force : Bool) (history : History) (workouts : List Workout) :
    List Workout :=
  workouts.filter (fun w => force || !(isWorkoutSynced history w.id))

end AimharderSync

namespace AimharderSync

/-! ## Supporting lemmas for the history store -/

theorem isWorkoutSynced_recordSync_self (h : History) (id ext reason : String) :
    isWorkoutSynced (recordSync h id ext true reason) id = true := by
  simp [isWorkoutSynced, recordSync]

theorem isWorkoutSynced_recordSync_mono (h : History) (id id2 ext : String)
    (succ : Bool) (reason : String)
    (hs : isWorkoutSynced h id = true) :
    isWorkoutSynced (recordSync h id2 ext succ reason) id = true := by
  unfold isWorkoutSynced recordSync
  unfold isWorkoutSynced at hs
  by_cases hid : id = id2
  · subst hid
    simp [List.any_append, hs]
  · simpa [hid] using hs

end AimharderSync

namespace AimharderSync

/-- **C1** — Idempotence of the sync batch at the need-sync filter: once a run
has appended a history entry with `success = true` for a workout (whether for
a fresh upload, a `"duplicate"`, or an `"already_exists"` skip), the workout
counts as synced — and stays synced under any further appended records — so a
later run's filter with `force = false` excludes it from the upload batch,
while `force = true` bypasses the predicate and keeps every workout. -/
theorem sync_batch_idempotent (h : History) (w : Workout)
    (ext reason : String) (ws : List Workout) :
    isWorkoutSynced (recordSync h w.id ext true reason) w.id = true ∧
    w ∉ filterToSync false (recordSync h w.id ext true reason) ws ∧
    (∀ id2 ext2 succ2 reason2,
      isWorkoutSynced h w.id = true →
      isWorkoutSynced (recordSync h id2 ext2 succ2 reason2) w.id = true) ∧
    filterToSync true h ws = ws := by
  refine ⟨isWorkoutSynced_recordSync_self h w.id ext reason, ?_, ?_, ?_⟩
  · intro hmem
    have := List.of_mem_filter hmem
    simp [isWorkoutSynced_recordSync_self h w.id ext reason] at this
  · intro id2 ext2 succ2 reason2 hs
    exact isWorkoutSynced_recordSync_mono h w.id id2 ext2 succ2 reason2 hs
  · simp [filterToSync]

/-- Witness for C1 at a concrete history that already holds a success
record for `"w1"`, a concrete workout and a one-workout batch: the
monotonicity conjunct is exercised with its hypothesis discharged, and the
filter conjuncts are instantiated. -/
theorem sync_batch_idempotent_witness :
    isWorkoutSynced
      (fun k => if k = "w1" then
        [{ workoutID := "w1", platform := "strava", externalID := "7",
           success := true, errorMessage := "" }] else []) "w1" = true ∧
    isWorkoutSynced
      (recordSync
        (fun k => if k = "w1" then
          [{ workoutID := "w1", platform := "strava", externalID := "7",
             success := true, errorMessage := "" }] else [])
        "w2" "e2" false "err") "w1" = true ∧
    ({ id := "w1", name := "n", dateStr := "2024-01-01", classTime := "",
       startEpoch := 0, durationSec := 0 } : Workout) ∉
      filterToSync false
        (recordSync
          (fun k => if k = "w1" then
            [{ workoutID := "w1", platform := "strava", externalID := "7",
               success := true, errorMessage := "" }] else [])
          "w1" "42" true "already_exists")
        [{ id := "w1", name := "n", dateStr := "2024-01-01", classTime := "",
           startEpoch := 0, durationSec := 0 }] ∧
    filterToSync true
      (fun k => if k = "w1" then
        [{ workoutID := "w1", platform := "strava", externalID := "7",
           success := true, errorMessage := "" }] else [])
      [{ id := "w1", name := "n", dateStr := "2024-01-01", classTime := "",
         startEpoch := 0, durationSec := 0 }] =
      [{ id := "w1", name := "n", dateStr := "2024-01-01", classTime := "",
         startEpoch := 0, durationSec := 0 }] := by
  have h := sync_batch_idempotent
    (fun k => if k = "w1" then
      [{ workoutID := "w1", platform := "strava", externalID := "7",
         success := true, errorMessage := "" }] else [])
    { id := "w1", name := "n", dateStr := "2024-01-01", classTime := "",
      startEpoch := 0, durationSec := 0 } "42" "already_exists"
    [{ id := "w1", name := "n", dateStr := "2024-01-01", classTime := "",
       startEpoch := 0, durationSec := 0 }]
  exact ⟨by decide, h.2.2.1 "w2" "e2" false "err" (by decide), h.2.1,
    h.2.2.2⟩

end AimharderSync

namespace AimharderSync

/-! ## Strava sync loop (src/Makefile `syncToStrava` lines 626-730; the
webhook variant src/unnamed/part_001 `runSync` lines 266-318 runs the same
per-item body). -/

/-- One activity as returned by the Strava activity-list query
(`strava.Activity`, fields read by the loop: numeric ID and external ID). -/
structure StravaActivity where
  id : Int
  externalID : String
deriving DecidableEq, Repr

/-- Modelled from the spec: `ActivityExistsForWorkout` is referenced by
`syncToStrava`/`runSync` but its body is not among the source files (only its
callers are).  Per the spec, a candidate workout is matched against the
pre-fetched list "by comparing the platform-specific external-ID field (the
same ID embedded into the file/metadata at encode time) to the remote
activity's external-ID"; the ID embedded at upload time is `workout.ID`
(src/unnamed/part_002 line 383). -/
def ActivityExistsForWorkout (activities : List StravaActivity) (w : Workout) :
    Option StravaActivity :=
  activities.find? (fun a => a.externalID = w.id)

/-- Go `strings.Contains`. -/
def containsSubstr (s pat : String) : Bool :=
  decide (pat.toList <:+: s.toList)

/-- Combined observable outcome of `stravaClient.UploadActivity` followed by
`stravaClient.WaitForUpload` and the status inspection for one item:
either of the two calls errors, or a status with a non-empty `Error` string
comes back, or an activity ID is created. -/
inductive UploadOutcome where
  | uploadError (msg : String)
  | waitError (msg : String)
  | statusError (msg : String)
  | created (activityID : Int)
deriving DecidableEq, Repr

/-- Loop state threaded through `syncToStrava`: the history map, the two
counters, and (as observational instrumentation) the IDs of the workouts for
which `UploadActivity` was actually invoked, in call order. -/
structure SyncState where
  history : History
  uploadedCount : Nat
  skippedCount : Nat
  uploads : List String

/-- The existence check guarding the upload: skipped entirely when the
pre-fetch failed (`existingActivities == nil`). -/
def dupOf (existing : Option (List StravaActivity)) (w : Workout) :
    Option StravaActivity :=
  match existing with
  | none => none
  | some acts => ActivityExistsForWorkout acts w

/-- Body of the upload loop for one `(workout, tcxFile)` pair
(src/Makefile lines 680-724).  `outcome` abstracts the Strava collaborator's
response to uploading that file for that workout. -/
def processOne (outcome : Workout → String → UploadOutcome)
    (existing : Option (List StravaActivity)) (st : SyncState)
    (wf : Workout × String) : SyncState :=
  let w := wf.1
  match dupOf existing w with
  | some ex =>
      { st with
        history := recordSync st.history w.id (toString ex.id) true
          "already_exists",
        skippedCount := st.skippedCount + 1 }
  | none =>
      let st := { st with uploads := st.uploads ++ [w.id] }
      match outcome w wf.2 with
      | .uploadError msg =>
          { st with history := recordSync st.history w.id "" false msg }
      | .waitError msg =>
          { st with history := recordSync st.history w.id "" false msg }
      | .statusError msg =>
          if msg = "duplicate" || containsSubstr msg "duplicate" then
            { st with
              history := recordSync st.history w.id "" true "duplicate",
              skippedCount := st.skippedCount + 1 }
          else
            { st with history := recordSync st.history w.id "" false msg }
      | .created aid =>
          { st with
            history := recordSync st.history w.id (toString aid) true "",
            uploadedCount := st.uploadedCount + 1 }

/-- The upload loop of `syncToStrava`: `for i, workout := range workouts`
with `if i >= len(tcxFiles) { break }` and `tcxFile := tcxFiles[i]` — i.e. a
left fold over `workouts.zip tcxFiles`. -/
def syncToStrava (outcome : Workout → String → UploadOutcome)
    (existing : Option (List StravaActivity)) (workouts : List Workout)
    (tcxFiles : List String) (history : History) : SyncState :=
  (workouts.zip tcxFiles).foldl (processOne outcome existing)
    { history := history, uploadedCount := 0, skippedCount := 0,
      uploads := [] }

/-! ## TCX batch generation (src/internal/tcx/generator.go `GenerateAll`
lines 184-197).  `generate` abstracts the per-workout `Generate` call, whose
failure modes (directory creation, marshalling, file write) are I/O. -/

/-- The accumulation loop of `GenerateAll`: a failed item is logged and
skipped (`continue`), a successful path is appended. -/
def generateAllFiles (generate : Workout → Except String String) :
    List Workout → List String
  | [] => []
  | w :: rest =>
      match generate w with
      | .ok f => f :: generateAllFiles generate rest
      | .error _ => generateAllFiles generate rest

/-- `GenerateAll` returns the collected paths and its error result, which is
the literal `nil` in the source. -/
def GenerateAll (generate : Workout → Except String String)
    (workouts : List Workout) : List String × Option String :=
  (generateAllFiles generate workouts, none)

/-- The history entry `recordSync` appends in the already-exists branch. -/
def alreadyExistsEntry (w : Workout) (ex : StravaActivity) : SyncStatus :=
  { workoutID := w.id, platform := "strava", externalID := toString ex.id,
    success := true, errorMessage := "already_exists" }

/-! ## Supporting lemmas for the sync loop -/

theorem recordSync_mem_mono (h : History) (id ext : String) (succ : Bool)
    (reason : String) (k : String) (x : SyncStatus) (hx : x ∈ h k) :
    x ∈ recordSync h id ext succ reason k := by
  unfold recordSync
  split
  · next heq => subst heq; exact List.mem_append_left _ hx
  · exact hx

theorem recordSync_other (h : History) (id ext : String) (succ : Bool)
    (reason : String) (k : String) (hk : k ≠ id) :
    recordSync h id ext succ reason k = h k := by
  unfold recordSync
  simp [hk]

theorem processOne_uploads (outcome : Workout → String → UploadOutcome)
    (existing : Option (List StravaActivity)) (st : SyncState)
    (wf : Workout × String) :
    (processOne outcome existing st wf).uploads =
      if (dupOf existing wf.1).isNone then st.uploads ++ [wf.1.id]
      else st.uploads := by
  unfold processOne
  rcases hdup : dupOf existing wf.1 with _ | ex <;> simp only [hdup]
  · rcases hout : outcome wf.1 wf.2 with msg | msg | msg | aid <;>
      simp only [hout, Option.isNone_none, if_true]
    split <;> rfl
  · simp

theorem processOne_history_mono (outcome : Workout → String → UploadOutcome)
    (existing : Option (List StravaActivity)) (st : SyncState)
    (wf : Workout × String) (k : String) (x : SyncStatus)
    (hx : x ∈ st.history k) :
    x ∈ (processOne outcome existing st wf).history k := by
  unfold processOne
  rcases hdup : dupOf existing wf.1 with _ | ex <;> simp only [hdup]
  · rcases hout : outcome wf.1 wf.2 with msg | msg | msg | aid <;>
      simp only [hout]
    case statusError =>
      split <;> exact recordSync_mem_mono _ _ _ _ _ _ _ hx
    all_goals exact recordSync_mem_mono _ _ _ _ _ _ _ hx
  · exact recordSync_mem_mono _ _ _ _ _ _ _ hx

theorem processOne_history_other (outcome : Workout → String → UploadOutcome)
    (existing : Option (List StravaActivity)) (st : SyncState)
    (wf : Workout × String) (k : String) (hk : k ≠ wf.1.id) :
    (processOne outcome existing st wf).history k = st.history k := by
  unfold processOne
  rcases hdup : dupOf existing wf.1 with _ | ex <;> simp only [hdup]
  · rcases hout : outcome wf.1 wf.2 with msg | msg | msg | aid <;>
      simp only [hout]
    case statusError =>
      split <;> exact recordSync_other _ _ _ _ _ _ hk
    all_goals exact recordSync_other _ _ _ _ _ _ hk
  · exact recordSync_other _ _ _ _ _ _ hk

theorem foldl_processOne_uploads (outcome : Workout → String → UploadOutcome)
    (existing : Option (List StravaActivity)) :
    ∀ (l : List (Workout × String)) (st : SyncState),
      (l.foldl (processOne outcome existing) st).uploads =
        st.uploads ++
          (l.filter (fun wf => (dupOf existing wf.1).isNone)).map
            (fun wf => wf.1.id)
  | [], st => by simp
  | wf :: rest, st => by
      rw [List.foldl_cons, foldl_processOne_uploads outcome existing rest,
        processOne_uploads]
      rcases hdup : (dupOf existing wf.1).isNone with _ | _
      · simp [List.filter_cons, hdup]
      · simp [List.filter_cons, hdup]

theorem foldl_processOne_history_mono
    (outcome : Workout → String → UploadOutcome)
    (existing : Option (List StravaActivity)) :
    ∀ (l : List (Workout × String)) (st : SyncState) (k : String)
      (x : SyncStatus), x ∈ st.history k →
      x ∈ (l.foldl (processOne outcome existing) st).history k
  | [], _, _, _, hx => hx
  | wf :: rest, st, k, x, hx => by
      rw [List.foldl_cons]
      exact foldl_processOne_history_mono outcome existing rest _ k x
        (processOne_history_mono outcome existing st wf k x hx)

theorem foldl_processOne_history_other
    (outcome : Workout → String → UploadOutcome)
    (existing : Option (List StravaActivity)) :
    ∀ (l : List (Workout × String)) (st : SyncState) (k : String),
      (∀ wf ∈ l, k ≠ wf.1.id) →
      (l.foldl (processOne outcome existing) st).history k = st.history k
  | [], _, _, _ => rfl
  | wf :: rest, st, k, hk => by
      rw [List.foldl_cons,
        foldl_processOne_history_other outcome existing rest _ k
          (fun x hx => hk x (List.mem_cons_of_mem _ hx)),
        processOne_history_other outcome existing st wf k
          (hk wf (List.mem_cons_self _ _))]

theorem foldl_processOne_dup_mem (outcome : Workout → String → UploadOutcome)
    (existing : Option (List StravaActivity)) :
    ∀ (l : List (Workout × String)) (st : SyncState) (w : Workout)
      (f : String) (ex : StravaActivity), (w, f) ∈ l →
      dupOf existing w = some ex →
      alreadyExistsEntry w ex ∈
        (l.foldl (processOne outcome existing) st).history w.id
  | [], _, _, _, _, hmem, _ => absurd hmem (List.not_mem_nil _)
  | wf :: rest, st, w, f, ex, hmem, hdup => by
      rw [List.foldl_cons]
      rcases List.mem_cons.mp hmem with heq | htail
      · subst heq
        apply foldl_processOne_history_mono
        unfold processOne
        simp only [hdup]
        unfold recordSync
        simp [alreadyExistsEntry]
      · exact foldl_processOne_dup_mem outcome existing rest _ w f ex htail
          hdup

end AimharderSync

namespace AimharderSync

/-- **C2** — Remote-duplicate short-circuit: for every pending workout of the
batch (paired with its file inside the loop bound), if the pre-fetched remote
activity list is present and `ActivityExistsForWorkout` finds a matching
activity, the run appends a history entry with `success = true`, reason
`"already_exists"` and the existing activity's ID for that workout, and
`UploadActivity` is never invoked for that workout in that run (workout IDs
are unique within a run, per the data-model invariant). -/
theorem remote_duplicate_short_circuit
    (outcome : Workout → String → UploadOutcome) (acts : List StravaActivity)
    (workouts : List Workout) (tcxFiles : List String) (h0 : History)
    (w : Workout) (f : String) (ex : StravaActivity)
    (hmem : (w, f) ∈ workouts.zip tcxFiles)
    (hex : ActivityExistsForWorkout acts w = some ex)
    (hnodup : (workouts.map (fun x => x.id)).Nodup) :
    ({ workoutID := w.id, platform := "strava",
       externalID := toString ex.id, success := true,
       errorMessage := "already_exists" } : SyncStatus) ∈
      (syncToStrava outcome (some acts) workouts tcxFiles h0).history w.id ∧
    w.id ∉ (syncToStrava outcome (some acts) workouts tcxFiles h0).uploads := by
  have hdup : dupOf (some acts) w = some ex := hex
  constructor
  · exact foldl_processOne_dup_mem outcome (some acts)
      (workouts.zip tcxFiles) _ w f ex hmem hdup
  · rw [syncToStrava, foldl_processOne_uploads]
    simp only [List.nil_append, List.mem_map, List.mem_filter]
    rintro ⟨⟨w2, f2⟩, ⟨hmem2, hnone⟩, hid⟩
    have hw2 : w2 ∈ workouts := (List.of_mem_zip hmem2).1
    have hw : w ∈ workouts := (List.of_mem_zip hmem).1
    have : w2 = w :=
      List.inj_on_of_nodup_map hnodup hw2 hw hid
    subst this
    rw [hdup] at hnone
    simp at hnone

/-- Witness for C2: a one-workout batch whose ID matches remote activity 42. -/
theorem remote_duplicate_short_circuit_witness :
    (({ id := "w1", name := "WOD", dateStr := "2024-05-01", classTime := "",
        startEpoch := 0, durationSec := 0 } : Workout), "f1") ∈
      [({ id := "w1", name := "WOD", dateStr := "2024-05-01", classTime := "",
          startEpoch := 0, durationSec := 0 } : Workout)].zip ["f1"] ∧
    ActivityExistsForWorkout [{ id := 42, externalID := "w1" }]
      { id := "w1", name := "WOD", dateStr := "2024-05-01", classTime := "",
        startEpoch := 0, durationSec := 0 } =
      some { id := 42, externalID := "w1" } ∧
    ({ workoutID := "w1", platform := "strava", externalID := toString (42 : Int),
       success := true, errorMessage := "already_exists" } : SyncStatus) ∈
      (syncToStrava (fun _ _ => UploadOutcome.created 7)
        (some [{ id := 42, externalID := "w1" }])
        [{ id := "w1", name := "WOD", dateStr := "2024-05-01", classTime := "",
           startEpoch := 0, durationSec := 0 }] ["f1"]
        (fun _ => [])).history "w1" ∧
    "w1" ∉ (syncToStrava (fun _ _ => UploadOutcome.created 7)
        (some [{ id := 42, externalID := "w1" }])
        [{ id := "w1", name := "WOD", dateStr := "2024-05-01", classTime := "",
           startEpoch := 0, durationSec := 0 }] ["f1"]
        (fun _ => [])).uploads := by
  refine ⟨by decide, by decide, ?_⟩
  exact remote_duplicate_short_circuit (fun _ _ => UploadOutcome.created 7)
    [{ id := 42, externalID := "w1" }]
    [{ id := "w1", name := "WOD", dateStr := "2024-05-01", classTime := "",
       startEpoch := 0, durationSec := 0 }] ["f1"] (fun _ => [])
    { id := "w1", name := "WOD", dateStr := "2024-05-01", classTime := "",
      startEpoch := 0, durationSec := 0 } "f1" { id := 42, externalID := "w1" }
    (by decide) (by decide) (by decide)

end AimharderSync

namespace AimharderSync

/-! ## Supporting lemmas for batch generation (C5) -/

theorem some_iget_of_isSome {β : Type} [Inhabited β] {o : Option β}
    (h : o.isSome) : some o.iget = o := by
  cases o
  · simp at h
  · rfl

theorem generateAllFiles_eq_filterMap (generate : Workout → Except String String) :
    ∀ workouts : List Workout,
      generateAllFiles generate workouts =
        workouts.filterMap (fun w => (generate w).toOption)
  | [] => rfl
  | w :: rest => by
      rw [generateAllFiles]
      rcases hgen : generate w with e | f <;>
        simp [hgen, List.filterMap_cons, Except.toOption,
          generateAllFiles_eq_filterMap generate rest]

theorem filterMap_allSome {α β : Type} [Inhabited β] (g : α → Option β) :
    ∀ l : List α, (∀ x ∈ l, (g x).isSome) →
      l.filterMap g = l.map (fun x => (g x).iget)
  | [], _ => rfl
  | x :: xs, hall => by
      have hx := hall x (List.mem_cons_self _ _)
      obtain ⟨b, hb⟩ := Option.isSome_iff_exists.mp hx
      rw [List.map_cons, List.filterMap_cons_some hb,
        filterMap_allSome g xs (fun y hy => hall y (List.mem_cons_of_mem _ hy)),
        hb]

/-- Structure of `filterMap` when exactly one input (at index `k`) is
dropped: the output is one shorter, agrees with the input before `k`, and is
shifted left by one from `k` on. -/
theorem filterMap_one_none {α β : Type} [Inhabited β] (g : α → Option β) :
    ∀ (l : List α) (k : Nat) (hk : k < l.length),
      g (l.get ⟨k, hk⟩) = none →
      (∀ j (hj : j < l.length), j ≠ k → (g (l.get ⟨j, hj⟩)).isSome) →
      (l.filterMap g).length + 1 = l.length ∧
      (∀ i (hik : i < k),
        (l.filterMap g)[i]? = g (l.get ⟨i, by omega⟩)) ∧
      (∀ i, k ≤ i → ∀ hi : i + 1 < l.length,
        (l.filterMap g)[i]? = g (l.get ⟨i + 1, hi⟩))
  | [], k, hk, _, _ => by simp at hk
  | x :: xs, 0, hk, hnone, hsome => by
      have hgx : g x = none := hnone
      have hxs : ∀ y ∈ xs, (g y).isSome := by
        intro y hy
        obtain ⟨⟨j, hj⟩, rfl⟩ := List.mem_iff_get.mp hy
        exact hsome (j + 1) (by simpa using Nat.succ_lt_succ hj) (by omega)
      rw [List.filterMap_cons_none hgx, filterMap_allSome g xs hxs]
      refine ⟨by simp, fun i hik => absurd hik (Nat.not_lt_zero i),
        fun i _ hi => ?_⟩
      have hi' : i < xs.length := by simpa using hi
      rw [List.getElem?_map, List.getElem?_eq_getElem hi', Option.map_some']
      exact some_iget_of_isSome (hxs _ (xs.get_mem _ _))
  | x :: xs, k + 1, hk, hnone, hsome => by
      have hgx : (g x).isSome := hsome 0 (by omega) (by omega)
      obtain ⟨b, hb⟩ := Option.isSome_iff_exists.mp hgx
      have hk' : k < xs.length := by simpa using hk
      have IH := filterMap_one_none g xs k hk' hnone
        (fun j hj hjk => hsome (j + 1) (by simpa using Nat.succ_lt_succ hj)
          (by omega))
      obtain ⟨IH1, IH2, IH3⟩ := IH
      rw [List.filterMap_cons_some hb]
      refine ⟨by simpa using IH1, ?_, ?_⟩
      · intro i hik
        match i with
        | 0 => simpa using hb.symm
        | i' + 1 =>
            have := IH2 i' (by omega)
            simpa using this
      · intro i hki hi
        match i, hki with
        | i' + 1, hki =>
            have := IH3 i' (by omega) (by simpa using hi)
            simpa using this

end AimharderSync

namespace AimharderSync

/-- **C5** — Batch encoding / upload pairing: `GenerateAll` always returns a
nil error and collects, in input order, exactly the paths of the workouts
that encoded successfully; the upload loop pairs the i-th workout with the
i-th path and stops when paths run out.  Hence with a single encoding failure
at index `k`: the batch is one path short, paths before `k` still belong to
their workouts, every path from `k` on belongs to the *next* workout, and the
trailing workout is dropped without any history record being made for it. -/
theorem generate_upload_pairing
    (generate : Workout → Except String String) (workouts : List Workout)
    (k : Nat) (hk : k < workouts.length)
    (hfail : (generate (workouts.get ⟨k, hk⟩)).toOption = none)
    (hok : ∀ j (hj : j < workouts.length), j ≠ k →
      ((generate (workouts.get ⟨j, hj⟩)).toOption).isSome) :
    (GenerateAll generate workouts).2 = none ∧
    (GenerateAll generate workouts).1 =
      workouts.filterMap (fun w => (generate w).toOption) ∧
    (GenerateAll generate workouts).1.length + 1 = workouts.length ∧
    (∀ i (hik : i < k), (GenerateAll generate workouts).1[i]? =
      (generate (workouts.get ⟨i, by omega⟩)).toOption) ∧
    (∀ i, k ≤ i → ∀ hi : i + 1 < workouts.length,
      (GenerateAll generate workouts).1[i]? =
      (generate (workouts.get ⟨i + 1, hi⟩)).toOption) ∧
    (∀ (outcome : Workout → String → UploadOutcome)
       (existing : Option (List StravaActivity)) (h0 : History) (wl : Workout),
      workouts.getLast? = some wl →
      (∀ wf ∈ workouts.zip (GenerateAll generate workouts).1, wl.id ≠ wf.1.id) →
      (syncToStrava outcome existing workouts
        (GenerateAll generate workouts).1 h0).history wl.id = h0 wl.id) := by
  have hfiles : (GenerateAll generate workouts).1 =
      workouts.filterMap (fun w => (generate w).toOption) :=
    generateAllFiles_eq_filterMap generate workouts
  have hstruct := filterMap_one_none (fun w => (generate w).toOption)
    workouts k hk hfail hok
  refine ⟨rfl, hfiles, ?_, ?_, ?_, ?_⟩
  · rw [hfiles]; exact hstruct.1
  · intro i hik; rw [hfiles]; exact hstruct.2.1 i hik
  · intro i hki hi; rw [hfiles]; exact hstruct.2.2 i hki hi
  · intro outcome existing h0 wl _ hfresh
    exact foldl_processOne_history_other outcome existing
      (workouts.zip (GenerateAll generate workouts).1) _ wl.id hfresh

/-- Witness for C5: a three-workout batch whose first workout fails to
encode; the first collected path belongs to the second workout and the third
workout ends the run with no history record. -/
theorem generate_upload_pairing_witness :
    ((fun (w : Workout) => if w.id = "a" then Except.error "boom"
        else Except.ok (String.append "p" w.id))
      { id := "a", name := "A", dateStr := "d", classTime := "",
        startEpoch := 0, durationSec := 0 } : Except String String).toOption =
      none ∧
    (GenerateAll (fun (w : Workout) => if w.id = "a" then Except.error "boom"
        else Except.ok (String.append "p" w.id))
      [{ id := "a", name := "A", dateStr := "d", classTime := "",
         startEpoch := 0, durationSec := 0 },
       { id := "b", name := "B", dateStr := "d", classTime := "",
         startEpoch := 0, durationSec := 0 },
       { id := "c", name := "C", dateStr := "d", classTime := "",
         startEpoch := 0, durationSec := 0 }]).1.length + 1 = 3 ∧
    (GenerateAll (fun (w : Workout) => if w.id = "a" then Except.error "boom"
        else Except.ok (String.append "p" w.id))
      [{ id := "a", name := "A", dateStr := "d", classTime := "",
         startEpoch := 0, durationSec := 0 },
       { id := "b", name := "B", dateStr := "d", classTime := "",
         startEpoch := 0, durationSec := 0 },
       { id := "c", name := "C", dateStr := "d", classTime := "",
         startEpoch := 0, durationSec := 0 }]).1[0]? = some "pb" ∧
    (syncToStrava (fun _ _ => UploadOutcome.created 1) none
      [{ id := "a", name := "A", dateStr := "d", classTime := "",
         startEpoch := 0, durationSec := 0 },
       { id := "b", name := "B", dateStr := "d", classTime := "",
         startEpoch := 0, durationSec := 0 },
       { id := "c", name := "C", dateStr := "d", classTime := "",
         startEpoch := 0, durationSec := 0 }]
      (GenerateAll (fun (w : Workout) => if w.id = "a" then Except.error "boom"
          else Except.ok (String.append "p" w.id))
        [{ id := "a", name := "A", dateStr := "d", classTime := "",
           startEpoch := 0, durationSec := 0 },
         { id := "b", name := "B", dateStr := "d", classTime := "",
           startEpoch := 0, durationSec := 0 },
         { id := "c", name := "C", dateStr := "d", classTime := "",
           startEpoch := 0, durationSec := 0 }]).1
      (fun _ => [])).history "c" = [] := by
  have h := generate_upload_pairing
    (fun (w : Workout) => if w.id = "a" then Except.error "boom"
      else Except.ok (String.append "p" w.id))
    [{ id := "a", name := "A", dateStr := "d", classTime := "",
       startEpoch := 0, durationSec := 0 },
     { id := "b", name := "B", dateStr := "d", classTime := "",
       startEpoch := 0, durationSec := 0 },
     { id := "c", name := "C", dateStr := "d", classTime := "",
       startEpoch := 0, durationSec := 0 }] 0 (by decide) (by decide)
    (by decide)
  refine ⟨by decide, h.2.2.1, ?_, ?_⟩
  · exact (h.2.2.2.2.1 0 (by omega) (by decide)).trans (by decide)
  · exact h.2.2.2.2.2 (fun _ _ => UploadOutcome.created 1) none (fun _ => [])
      { id := "c", name := "C", dateStr := "d", classTime := "",
        startEpoch := 0, durationSec := 0 } (by decide) (by decide)

end AimharderSync

namespace AimharderSync

/-! ## TCX generator (src/internal/tcx/generator.go).  Go `float64`
arithmetic is modelled exactly over `ℚ`; the only claims proved about the
heart-rate values are insensitive to rounding because the source clamps the
final value as its last step. -/

/-- Go `int(f)` conversion of a float: truncation toward zero. -/
def fTrunc (q : ℚ) : ℤ :=
  if 0 ≤ q then ⌊q⌋ else ⌈q⌉

/-- First normalization loop of `sinApprox`:
`for x > 6.28 { x -= 6.28 }`. -/
def sinNormDown (x : ℚ) : ℚ :=
  if h : x > 157 / 25 then sinNormDown (x - 157 / 25) else x
termination_by (⌈x * (25 / 157)⌉).toNat
decreasing_by
  have h2 : (x - 157 / 25) * (25 / 157) = x * (25 / 157) - 1 := by ring
  rw [h2, Int.ceil_sub_one]
  have h1 : (1 : ℚ) < x * (25 / 157) := by nlinarith
  have h3 : (1 : ℤ) < ⌈x * (25 / 157)⌉ := Int.lt_ceil.mpr (by exact_mod_cast h1)
  omega

/-- Second normalization loop of `sinApprox`:
`for x < 0 { x += 6.28 }`. -/
def sinNormUp (x : ℚ) : ℚ :=
  if h : x < 0 then sinNormUp (x + 157 / 25) else x
termination_by (⌈-x * (25 / 157)⌉).toNat
decreasing_by
  have h2 : -(x + 157 / 25) * (25 / 157) = -x * (25 / 157) - 1 := by ring
  rw [h2, Int.ceil_sub_one]
  have h1 : (0 : ℚ) < -x * (25 / 157) := by nlinarith
  have h3 : (0 : ℤ) < ⌈-x * (25 / 157)⌉ := Int.lt_ceil.mpr (by exact_mod_cast h1)
  omega

/-- `sinApprox`: normalize into the approximate 0–2π range, then a 5th-order
Taylor polynomial (generator.go lines 537-549). -/
def sinApprox (x : ℚ) : ℚ :=
  let y := sinNormUp (sinNormDown x)
  y - y * y * y / 6 + y * y * y * y * y / 120

/-- Heart rate of one trackpoint before jitter and clamping
(generator.go lines 498-514): warm-up ramp for the first 5 minutes,
cool-down ramp for the last 5 minutes, otherwise the oscillating working
phase. -/
def hrRaw (elapsed totalSeconds : ℤ) : ℤ :=
  if elapsed < 5 * 60 then
    110 + fTrunc ((elapsed : ℚ) / (5 * 60) * 30)
  else if elapsed > totalSeconds - 5 * 60 then
    160 - fTrunc (((elapsed - (totalSeconds - 5 * 60) : ℤ) : ℚ) / (5 * 60) * 40)
  else
    148 + fTrunc (12 * (1 / 2 + 1 / 2 * sinApprox ((elapsed : ℚ) / 60 * 2)))

/-- Heart rate of one trackpoint: raw phase value, plus the deterministic
jitter `(elapsed % 7) - 3`, then the final clamp to `[100, 185]`
(generator.go lines 516-525).  `elapsed` is non-negative in every call, so
Go's `%` agrees with `Int.emod`. -/
def hrAt (elapsed totalSeconds : ℤ) : ℤ :=
  let hr := hrRaw elapsed totalSeconds + (elapsed % 7 - 3)
  let hr := if hr < 100 then 100 else hr
  if hr > 185 then 185 else hr

/-- The clamped point count (generator.go lines 481-488):
`totalSeconds / 30`, at least 4, at most 120. -/
def numPoints (totalSeconds : Nat) : Nat :=
  let n := totalSeconds / 30
  let n := if n < 4 then 4 else n
  if n > 120 then 120 else n

/-- One synthesized trackpoint: timestamp (epoch seconds) and heart rate. -/
structure TrackpointM where
  time : ℤ
  hr : ℤ
deriving DecidableEq, Repr

/-- `generateTrackpointsWithHR` (generator.go lines 477-534): the loop
`for i := 0; i <= numPoints; i++` appends one trackpoint per iteration at
`startTime + 30*i` seconds. -/
def generateTrackpointsWithHR (startTime : ℤ) (durationSec : Nat) :
    List TrackpointM :=
  (List.range (numPoints durationSec + 1)).map (fun i : ℕ =>
    let elapsed : ℤ := (i : ℤ) * 30
    { time := startTime + elapsed, hr := hrAt elapsed (durationSec : ℤ) })

/-- The generator configuration (`tcx.Generator`). -/
structure Generator where
  outputDir : String
  defaultDurationSec : Nat
deriving DecidableEq, Repr

/-- `NewGenerator` (generator.go lines 143-151): a zero default duration is
replaced by 60 minutes. -/
def NewGenerator (outputDir : String) (defaultDurationSec : Nat) : Generator :=
  { outputDir := outputDir,
    defaultDurationSec :=
      if defaultDurationSec = 0 then 60 * 60 else defaultDurationSec }

/-- The lap produced by `workoutToTCX`, restricted to the numeric fields
(start time, total seconds, calories, lap-level heart rates, track). -/
structure LapM where
  startTime : ℤ
  totalTimeSeconds : Nat
  calories : ℤ
  avgHR : ℤ
  maxHR : ℤ
  track : List TrackpointM
deriving DecidableEq, Repr

/-- `workoutToTCX` (generator.go lines 200-301), numeric content of the
single lap.  The duration is the explicit workout duration when positive,
otherwise the generator's configured default (lines 208-211); the workout
result is consulted only for lap-level heart rates and calories. -/
def workoutToTCX (g : Generator) (w : Workout) : LapM :=
  let startTime := w.startEpoch
  let duration := if w.durationSec > 0 then w.durationSec
    else g.defaultDurationSec
  let calories0 : ℤ :=
    match w.result with
    | some r => if r.calories > 0 then r.calories else 0
    | none => 0
  let avgHR : ℤ :=
    match w.result with
    | some r => if r.avgHeartRate > 0 then r.avgHeartRate else 150
    | none => 150
  let maxHR : ℤ :=
    match w.result with
    | some r => if r.maxHeartRate > 0 then r.maxHeartRate else 175
    | none => 175
  { startTime := startTime,
    totalTimeSeconds := duration,
    calories := if calories0 = 0 then 400 else calories0,
    avgHR := avgHR,
    maxHR := maxHR,
    track := generateTrackpointsWithHR startTime duration }

end AimharderSync


namespace AimharderSync

/-! ## Supporting lemmas for the trackpoint series -/

theorem generateTrackpointsWithHR_length (start : ℤ) (D : ℕ) :
    (generateTrackpointsWithHR start D).length = numPoints D + 1 := by
  unfold generateTrackpointsWithHR
  rw [List.length_map, List.length_range]

theorem numPoints_eq_clamp (D : ℕ) :
    numPoints D = min 120 (max 4 (D / 30)) := by
  simp only [numPoints]
  split_ifs <;> omega

theorem generateTrackpointsWithHR_times (start : ℤ) (D : ℕ) :
    (generateTrackpointsWithHR start D).map (fun tp => tp.time) =
      (List.range (numPoints D + 1)).map (fun i : ℕ => start + (i : ℤ) * 30) := by
  simp [generateTrackpointsWithHR]

theorem hrAt_bounds (elapsed totalSeconds : ℤ) :
    100 ≤ hrAt elapsed totalSeconds ∧ hrAt elapsed totalSeconds ≤ 185 := by
  dsimp only [hrAt]
  split_ifs <;> omega

end AimharderSync

namespace AimharderSync

/-- **C3 counterexample** — at duration D = 3600 s the claimed point count
`clamp(D/30, 4, 120) = 120` is wrong: the loop `for i := 0; i <= numPoints`
emits 121 trackpoints. -/
theorem trackpoint_count_counterexample :
    (generateTrackpointsWithHR 0 3600).length ≠ min 120 (max 4 (3600 / 30)) := by
  rw [generateTrackpointsWithHR_length, numPoints_eq_clamp]
  decide

/-- **C3 (amended)** — the trackpoint series is spaced at fixed 30-second
intervals and has `clamp(D/30, 4, 120) + 1` points (one more than the claim
said); for durations in the unclamped range `120 ≤ D ≤ 3600` the last
timestamp is `start + 30*(D/30)`, which equals `start + D` to within one
30-second step.  (Outside that range the minimum of 4 / maximum of 120
points makes the last timestamp deviate from `start + D` by more than one
step.) -/
theorem trackpoint_series_roundtrip (start : ℤ) (D : ℕ)
    (hD : 120 ≤ D ∧ D ≤ 3600) :
    (generateTrackpointsWithHR start D).map (fun tp => tp.time) =
      (List.range (numPoints D + 1)).map (fun i : ℕ => start + (i : ℤ) * 30) ∧
    (generateTrackpointsWithHR start D).length =
      min 120 (max 4 (D / 30)) + 1 ∧
    ((generateTrackpointsWithHR start D).map (fun tp => tp.time)).getLast? =
      some (start + ((D / 30 : ℕ) : ℤ) * 30) ∧
    start + (D : ℤ) - 30 < start + ((D / 30 : ℕ) : ℤ) * 30 ∧
    start + ((D / 30 : ℕ) : ℤ) * 30 ≤ start + (D : ℤ) := by
  obtain ⟨h1, h2⟩ := hD
  have hnp : numPoints D = D / 30 := by
    rw [numPoints_eq_clamp]
    omega
  refine ⟨generateTrackpointsWithHR_times start D, ?_, ?_, ?_, ?_⟩
  · rw [generateTrackpointsWithHR_length, numPoints_eq_clamp]
  · rw [generateTrackpointsWithHR_times, List.getLast?_map,
      List.getLast?_range, hnp]
    simp
  · have hmod : D % 30 < 30 := Nat.mod_lt _ (by norm_num)
    have hdiv := Nat.div_add_mod D 30
    have : ((D / 30 : ℕ) : ℤ) * 30 = ((30 * (D / 30) : ℕ) : ℤ) := by
      push_cast; ring
    omega
  · have hdivle : D / 30 * 30 ≤ D := by omega
    have : ((D / 30 : ℕ) : ℤ) * 30 ≤ (D : ℤ) := by exact_mod_cast hdivle
    omega

/-- Witness for C3 (amended) at start = 5, D = 600 s. -/
theorem trackpoint_series_roundtrip_witness :
    (120 ≤ 600 ∧ 600 ≤ 3600) ∧
    ((generateTrackpointsWithHR 5 600).map (fun tp => tp.time) =
      (List.range (numPoints 600 + 1)).map (fun i : ℕ => (5 : ℤ) + (i : ℤ) * 30) ∧
    (generateTrackpointsWithHR 5 600).length =
      min 120 (max 4 (600 / 30)) + 1 ∧
    ((generateTrackpointsWithHR 5 600).map (fun tp => tp.time)).getLast? =
      some (5 + ((600 / 30 : ℕ) : ℤ) * 30) ∧
    (5 : ℤ) + (600 : ℤ) - 30 < 5 + ((600 / 30 : ℕ) : ℤ) * 30 ∧
    (5 : ℤ) + ((600 / 30 : ℕ) : ℤ) * 30 ≤ 5 + (600 : ℤ)) :=
  ⟨by decide, trackpoint_series_roundtrip 5 600 (by decide)⟩

end AimharderSync

namespace AimharderSync

/-- **C4 counterexample** — a workout with no explicit duration but a result
whose elapsed time is 1500 s is encoded with the 3600 s default, not with the
result's elapsed time as the claim states. -/
theorem effective_duration_counterexample :
    (workoutToTCX (NewGenerator "out" 0)
      { id := "w", name := "n", dateStr := "2024-01-01", classTime := "",
        startEpoch := 0, durationSec := 0,
        result := some { time := some 1500 } }).totalTimeSeconds = 3600 ∧
    (workoutToTCX (NewGenerator "out" 0)
      { id := "w", name := "n", dateStr := "2024-01-01", classTime := "",
        startEpoch := 0, durationSec := 0,
        result := some { time := some 1500 } }).totalTimeSeconds ≠ 1500 := by
  constructor <;> decide

/-- **C4 (amended)** — the encoded lap duration is the workout's explicit
duration when positive and otherwise the generator's configured default
(3600 s when the generator was constructed with a zero default); the
result's elapsed time is never consulted for the lap duration. -/
theorem effective_duration_fallback (dir : String) (w : Workout)
    (d : ℕ) (hd : d ≠ 0) :
    ((workoutToTCX (NewGenerator dir 0) w).totalTimeSeconds =
      if 0 < w.durationSec then w.durationSec else 3600) ∧
    ((workoutToTCX (NewGenerator dir d) w).totalTimeSeconds =
      if 0 < w.durationSec then w.durationSec else d) ∧
    (∀ r, (workoutToTCX (NewGenerator dir 0)
        { w with result := r }).totalTimeSeconds =
      (workoutToTCX (NewGenerator dir 0) w).totalTimeSeconds) := by
  refine ⟨?_, ?_, ?_⟩
  · simp [workoutToTCX, NewGenerator]
  · simp [workoutToTCX, NewGenerator, hd]
  · intro r
    simp [workoutToTCX, NewGenerator]

/-- Witness for C4 (amended) at a concrete generator and workout. -/
theorem effective_duration_fallback_witness :
    (1800 ≠ 0) ∧
    (((workoutToTCX (NewGenerator "out" 0)
        { id := "w", name := "n", dateStr := "2024-01-01", classTime := "",
          startEpoch := 0, durationSec := 900 }).totalTimeSeconds =
      if 0 < (900 : ℕ) then 900 else 3600) ∧
    ((workoutToTCX (NewGenerator "out" 1800)
        { id := "w", name := "n", dateStr := "2024-01-01", classTime := "",
          startEpoch := 0, durationSec := 900 }).totalTimeSeconds =
      if 0 < (900 : ℕ) then 900 else 1800) ∧
    (∀ r, (workoutToTCX (NewGenerator "out" 0)
        { id := "w", name := "n", dateStr := "2024-01-01", classTime := "",
          startEpoch := 0, durationSec := 900, result := r }).totalTimeSeconds =
      (workoutToTCX (NewGenerator "out" 0)
        { id := "w", name := "n", dateStr := "2024-01-01", classTime := "",
          startEpoch := 0, durationSec := 900 }).totalTimeSeconds)) :=
  ⟨by decide, effective_duration_fallback "out"
    { id := "w", name := "n", dateStr := "2024-01-01", classTime := "",
      startEpoch := 0, durationSec := 900 } 1800 (by decide)⟩

end AimharderSync

namespace AimharderSync

/-- **C10** — heart-rate bounds: every synthesized trackpoint's heart rate —
after the phase profile, the `(elapsed % 7) - 3` jitter and the final clamp —
lies in `[100, 185]`, for every start time and duration. -/
theorem heart_rate_bounds (start : ℤ) (D : ℕ) (tp : TrackpointM)
    (htp : tp ∈ generateTrackpointsWithHR start D) :
    100 ≤ tp.hr ∧ tp.hr ≤ 185 := by
  simp only [generateTrackpointsWithHR, List.mem_map, List.mem_range] at htp
  obtain ⟨i, _, rfl⟩ := htp
  dsimp only
  exact hrAt_bounds _ _

/-- Witness for C10: the first trackpoint of a zero-duration workout. -/
theorem heart_rate_bounds_witness :
    (({ time := 3 + ((0 : ℕ) : ℤ) * 30,
        hr := hrAt (((0 : ℕ) : ℤ) * 30) ((0 : ℕ) : ℤ) } : TrackpointM) ∈
      generateTrackpointsWithHR 3 0) ∧
    (100 ≤
      ({ time := 3 + ((0 : ℕ) : ℤ) * 30,
         hr := hrAt (((0 : ℕ) : ℤ) * 30) ((0 : ℕ) : ℤ) } : TrackpointM).hr ∧
      ({ time := 3 + ((0 : ℕ) : ℤ) * 30,
         hr := hrAt (((0 : ℕ) : ℤ) * 30) ((0 : ℕ) : ℤ) } : TrackpointM).hr ≤
        185) :=
  ⟨List.mem_map_of_mem _ (by simp [numPoints]),
   heart_rate_bounds 3 0 _ (List.mem_map_of_mem _ (by simp [numPoints]))⟩

end AimharderSync

namespace AimharderSync

/-! ## Filename sanitization (src/internal/tcx/generator.go lines 416-472).
Strings are processed as their character lists; every character the code
touches is ASCII, where Go's byte-wise operations and `strings.ToLower`
coincide with the character-wise model. -/

/-- The replacement set of `sanitizeFilename` (generator.go line 449). -/
def invalidFilenameChars : List Char :=
  ['/', '\\', ':', '*', '?', '\"', '<', '>', '|', ' ']

/-- Go `strings.ReplaceAll(s, string(a), string(b))` for single characters. -/
def replaceChar (a b : Char) (l : List Char) : List Char :=
  l.map (fun c => if c = a then b else c)

/-- The replacement loop: one `strings.ReplaceAll(result, char, "-")` per
invalid character, in order. -/
def replaceInvalid (l : List Char) : List Char :=
  invalidFilenameChars.foldl (fun acc a => replaceChar a '-' acc) l

/-- One pass of Go `strings.ReplaceAll(result, "--", "-")`: non-overlapping
leftmost replacement of dash pairs. -/
def replaceDD : List Char → List Char
  | [] => []
  | [c] => [c]
  | c :: d :: rest =>
      if c = '-' ∧ d = '-' then '-' :: replaceDD rest
      else c :: replaceDD (d :: rest)

/-- Go `strings.Contains(result, "--")`. -/
def hasDD (l : List Char) : Bool :=
  decide (['-', '-'] <:+: l)

theorem replaceDD_length_le : ∀ l : List Char,
    (replaceDD l).length ≤ l.length
  | [] => by simp [replaceDD]
  | [c] => by simp [replaceDD]
  | c :: d :: rest => by
      rw [replaceDD]
      split_ifs
      · have := replaceDD_length_le rest
        simp only [List.length_cons]
        omega
      · have := replaceDD_length_le (d :: rest)
        simp only [List.length_cons] at this ⊢
        omega

theorem replaceDD_length_lt : ∀ l : List Char, hasDD l = true →
    (replaceDD l).length < l.length
  | [], h => by
      simp only [hasDD, decide_eq_true_eq] at h
      have := h.length_le
      simp at this
  | [c], h => by
      simp only [hasDD, decide_eq_true_eq] at h
      have := h.length_le
      simp at this
  | c :: d :: rest, h => by
      rw [replaceDD]
      split_ifs with hcd
      · have := replaceDD_length_le rest
        simp only [List.length_cons]
        omega
      · have hinf : ['-', '-'] <:+: c :: d :: rest := by
          simpa only [hasDD, decide_eq_true_eq] using h
        have h2 : ['-', '-'] <:+: d :: rest := by
          obtain ⟨sl, t, hst⟩ := hinf
          match sl, hst with
          | [], hst =>
              exfalso
              simp only [List.nil_append, List.cons_append,
                List.cons.injEq] at hst
              exact hcd ⟨hst.1.symm, hst.2.1.symm⟩
          | s0 :: srest, hst =>
              simp only [List.cons_append, List.cons.injEq] at hst
              exact ⟨srest, t, hst.2⟩
        have := replaceDD_length_lt (d :: rest)
          (by simpa only [hasDD, decide_eq_true_eq] using h2)
        simp only [List.length_cons] at this ⊢
        omega

end AimharderSync

namespace AimharderSync

/-- One fuelled unfolding of the collapse loop of `sanitizeFilename`:
`for strings.Contains(result, "--") { result = ReplaceAll(result, "--", "-") }`.
Each iteration strictly shrinks the list (`replaceDD_length_lt`), so
`l.length` iterations always reach the loop's exit condition; the fuelled
recursion computes the loop's fixpoint while staying kernel-executable. -/
def collapseDashesGo : Nat → List Char → List Char
  | 0, l => l
  | fuel + 1, l =>
      if hasDD l = true then collapseDashesGo fuel (replaceDD l) else l

/-- The collapse loop, with enough fuel to reach its exit condition. -/
def collapseDashes (l : List Char) : List Char :=
  collapseDashesGo l.length l

/-- Go `strings.Trim(result, "-")`: strip leading and trailing dashes. -/
def trimDashes (l : List Char) : List Char :=
  (((l.dropWhile (fun c => c = '-')).reverse.dropWhile
    (fun c => c = '-'))).reverse

/-- ASCII restriction of Go `strings.ToLower` (the only characters the
sanitizer encounters non-trivially are ASCII). -/
def toLowerChar (c : Char) : Char :=
  if 65 ≤ c.toNat ∧ c.toNat ≤ 90 then Char.ofNat (c.toNat + 32) else c

/-- `sanitizeFilename` (generator.go lines 447-472) on the character list:
replace invalid characters by dashes, collapse repeated dashes, trim end
dashes, lowercase, cap at 50 characters. -/
def sanitizeList (l : List Char) : List Char :=
  let result := replaceInvalid l
  let result := collapseDashes result
  let result := trimDashes result
  let result := result.map toLowerChar
  result.take 50

/-- `sanitizeFilename`, as a `String → String`. -/
def sanitizeFilename (name : String) : String :=
  String.mk (sanitizeList name.toList)

/-- `generateFilename` (generator.go lines 417-432):
`<date>_<HHMM-or-0000>_<slug>.tcx`, with the colon-stripped class time
defaulting to `"0000"` and an empty slug defaulting to `"workout"`. -/
def generateFilename (w : Workout) : String :=
  let dateStr := w.dateStr
  let timeStr := String.mk (w.classTime.toList.filter (fun c => ¬(c = ':')))
  let timeStr := if timeStr = "" then "0000" else timeStr
  let name := sanitizeFilename w.name
  let name := if name = "" then "workout" else name
  dateStr ++ "_" ++ timeStr ++ "_" ++ name ++ ".tcx"

end AimharderSync

namespace AimharderSync

/-! ## Supporting lemmas for sanitizeFilename -/

theorem mem_replaceChar {a b c : Char} {l : List Char}
    (h : c ∈ replaceChar a b l) : c = b ∨ (c ∈ l ∧ c ≠ a) := by
  simp only [replaceChar, List.mem_map] at h
  obtain ⟨d, hd, hc⟩ := h
  by_cases hda : d = a
  · rw [if_pos hda] at hc
    exact Or.inl hc.symm
  · rw [if_neg hda] at hc
    subst hc
    exact Or.inr ⟨hd, hda⟩

theorem mem_foldl_replace {c : Char} : ∀ (pats : List Char) (l : List Char),
    c ∈ pats.foldl (fun acc a => replaceChar a '-' acc) l →
    c = '-' ∨ (c ∈ l ∧ c ∉ pats)
  | [], l, h => Or.inr ⟨h, List.not_mem_nil c⟩
  | a :: rest, l, h => by
      rw [List.foldl_cons] at h
      rcases mem_foldl_replace rest (replaceChar a '-' l) h with hd | ⟨hm, hnp⟩
      · exact Or.inl hd
      · rcases mem_replaceChar hm with hd | ⟨hm2, hna⟩
        · exact Or.inl hd
        · exact Or.inr ⟨hm2, by simp [hna, hnp]⟩

theorem mem_replaceInvalid {c : Char} {l : List Char}
    (h : c ∈ replaceInvalid l) : c ∉ invalidFilenameChars := by
  rcases mem_foldl_replace invalidFilenameChars l h with hd | ⟨_, hnp⟩
  · subst hd; decide
  · exact hnp

theorem mem_replaceDD {c : Char} : ∀ {l : List Char},
    c ∈ replaceDD l → c ∈ l := by
  intro l
  induction l using replaceDD.induct with
  | case1 => simp [replaceDD]
  | case2 d => simp [replaceDD]
  | case3 x d rest hcd ih =>
      rw [replaceDD, if_pos hcd]
      intro h
      rcases List.mem_cons.mp h with h1 | h2
      · simp [h1, hcd.1]
      · simp [ih h2]
  | case4 x d rest hcd ih =>
      rw [replaceDD, if_neg hcd]
      intro h
      rcases List.mem_cons.mp h with h1 | h2
      · simp [h1]
      · simpa using Or.inr (ih h2)

theorem collapseDashesGo_notDD : ∀ (fuel : Nat) (l : List Char),
    l.length ≤ fuel → hasDD (collapseDashesGo fuel l) = false
  | 0, l, h => by
      have hl : l = [] := List.eq_nil_of_length_eq_zero (by omega)
      subst hl
      decide
  | fuel + 1, l, h => by
      rw [collapseDashesGo]
      split_ifs with hdd
      · exact collapseDashesGo_notDD fuel (replaceDD l)
          (by have := replaceDD_length_lt l hdd; omega)
      · simpa using hdd

theorem collapseDashes_notDD (l : List Char) :
    hasDD (collapseDashes l) = false :=
  collapseDashesGo_notDD l.length l (Nat.le_refl _)

theorem mem_collapseDashesGo {c : Char} : ∀ (fuel : Nat) (l : List Char),
    c ∈ collapseDashesGo fuel l → c ∈ l
  | 0, _, h => h
  | fuel + 1, l, h => by
      rw [collapseDashesGo] at h
      split_ifs at h with hdd
      · exact mem_replaceDD (mem_collapseDashesGo fuel (replaceDD l) h)
      · exact h

theorem mem_collapseDashes {c : Char} (l : List Char)
    (h : c ∈ collapseDashes l) : c ∈ l :=
  mem_collapseDashesGo l.length l h

end AimharderSync

namespace AimharderSync

theorem char_toNat_ofNat_of_lt {n : Nat} (h : n < 55296) :
    (Char.ofNat n).toNat = n := by
  unfold Char.ofNat
  rw [dif_pos (Or.inl h)]
  simp [Char.ofNatAux, Char.toNat, UInt32.toNat]

theorem char_eq_of_toNat_eq {c d : Char} (h : c.toNat = d.toNat) : c = d := by
  rw [← Char.ofNat_toNat c, ← Char.ofNat_toNat d, h]

theorem toLowerChar_toNat (c : Char) :
    (toLowerChar c).toNat =
      if 65 ≤ c.toNat ∧ c.toNat ≤ 90 then c.toNat + 32 else c.toNat := by
  unfold toLowerChar
  split_ifs with h
  · exact char_toNat_ofNat_of_lt (by omega)
  · rfl

theorem toLowerChar_not_upper (c : Char) :
    ¬(65 ≤ (toLowerChar c).toNat ∧ (toLowerChar c).toNat ≤ 90) := by
  rw [toLowerChar_toNat]
  split_ifs with h <;> omega

theorem invalid_toNat : ∀ d ∈ invalidFilenameChars,
    ¬(97 ≤ d.toNat ∧ d.toNat ≤ 122) := by decide

theorem toLowerChar_not_invalid {c : Char} (hc : c ∉ invalidFilenameChars) :
    toLowerChar c ∉ invalidFilenameChars := by
  intro hmem
  have hval := invalid_toNat _ hmem
  by_cases h : 65 ≤ c.toNat ∧ c.toNat ≤ 90
  · rw [toLowerChar_toNat, if_pos h] at hval
    exact hval ⟨by omega, by omega⟩
  · have heq : toLowerChar c = c := by unfold toLowerChar; rw [if_neg h]
    rw [heq] at hmem
    exact hc hmem

theorem toLowerChar_eq_dash {c : Char} (h : toLowerChar c = '-') :
    c = '-' := by
  have hn := congrArg Char.toNat h
  rw [toLowerChar_toNat] at hn
  have h45 : ('-' : Char).toNat = 45 := by decide
  rw [h45] at hn
  split_ifs at hn with h2
  · omega
  · exact char_eq_of_toNat_eq (by rw [hn, h45])

theorem head?_dropWhile_false (p : Char → Bool) : ∀ (l : List Char)
    (c : Char), (l.dropWhile p).head? = some c → p c = false
  | [], c, h => by simp at h
  | x :: xs, c, h => by
      rw [List.dropWhile_cons] at h
      split_ifs at h with hx
      · exact head?_dropWhile_false p xs c h
      · simp only [List.head?_cons, Option.some.injEq] at h
        subst h
        simpa using hx

theorem trimDashes_pre (l : List Char) :
    trimDashes l <+: l.dropWhile (fun c => c = '-') := by
  unfold trimDashes
  apply List.reverse_suffix.mp
  simpa using List.dropWhile_suffix (fun c => c = '-')

theorem trimDashes_inf (l : List Char) : trimDashes l <:+: l :=
  ((trimDashes_pre l).isInfix).trans
    (List.dropWhile_suffix (fun c => c = '-')).isInfix

theorem mem_trimDashes {c : Char} {l : List Char} (h : c ∈ trimDashes l) :
    c ∈ l :=
  (trimDashes_inf l).sublist.subset h

theorem trimDashes_head {l : List Char} {c : Char}
    (h : (trimDashes l).head? = some c) : c ≠ '-' := by
  obtain ⟨t, ht⟩ := trimDashes_pre l
  have hd : (l.dropWhile (fun x => x = '-')).head? = some c := by
    rw [← ht, List.head?_append, h]
    rfl
  simpa using head?_dropWhile_false (fun x => x = '-') l c hd

theorem trimDashes_getLast {l : List Char} {c : Char}
    (h : (trimDashes l).getLast? = some c) : c ≠ '-' := by
  unfold trimDashes at h
  rw [List.getLast?_reverse] at h
  simpa using head?_dropWhile_false _ _ _ h

theorem notDD_of_infix {l1 l2 : List Char} (hinf : l1 <:+: l2)
    (h : hasDD l2 = false) : hasDD l1 = false := by
  simp only [hasDD, decide_eq_false_iff_not] at h ⊢
  exact fun hi => h (hi.trans hinf)

theorem infix_dd_map_toLower {l : List Char}
    (h : ['-', '-'] <:+: l.map toLowerChar) : ['-', '-'] <:+: l := by
  obtain ⟨s, t, hst⟩ := h
  obtain ⟨l₁, l₂, hl, h1, h2⟩ := List.map_eq_append_iff.mp hst.symm
  obtain ⟨l₃, l₄, hl2, h3, h4⟩ := List.map_eq_append_iff.mp h1
  obtain ⟨a, l₅, hl4, ha, h5⟩ := List.map_eq_cons_iff.mp h4
  obtain ⟨b, l₆, hl5, hb, h6⟩ := List.map_eq_cons_iff.mp h5
  have hl6 : l₆ = [] := by simpa using h6
  have ha2 : a = '-' := toLowerChar_eq_dash ha
  have hb2 : b = '-' := toLowerChar_eq_dash hb
  refine ⟨l₃, l₂, ?_⟩
  subst hl hl2 hl4 hl5 hl6 ha2 hb2
  simp

theorem head?_take_fifty {l : List Char} {c : Char}
    (h : (l.take 50).head? = some c) : l.head? = some c := by
  cases l with
  | nil => simp at h
  | cons a as => simpa [List.take_succ_cons] using h

end AimharderSync

namespace AimharderSync

/-- **C9** — Filename sanitization: for every workout name the slug
`sanitizeFilename name` contains none of the path-unsafe characters
`/ \ : * ? " < > |` nor spaces (they are all in `invalidFilenameChars`),
contains no uppercase ASCII letter, holds no repeated hyphens, is at most 50
characters long and does not start with a hyphen; before the final
truncation it also does not end with a hyphen; and `generateFilename`
produces `<date>_<HHMM-or-0000>_workout.tcx` when the sanitized name is
empty. -/
theorem filename_sanitization (name : String) (w : Workout) :
    (∀ c ∈ (sanitizeFilename name).toList,
      c ∉ invalidFilenameChars ∧ ¬(65 ≤ c.toNat ∧ c.toNat ≤ 90)) ∧
    hasDD (sanitizeFilename name).toList = false ∧
    (sanitizeFilename name).toList.length ≤ 50 ∧
    (∀ c, (sanitizeFilename name).toList.head? = some c → c ≠ '-') ∧
    (∀ c, ((trimDashes (collapseDashes (replaceInvalid name.toList))).map
        toLowerChar).getLast? = some c → c ≠ '-') ∧
    (sanitizeFilename w.name = "" →
      generateFilename w =
        w.dateStr ++ "_" ++
          (if String.mk (w.classTime.toList.filter (fun c => ¬(c = ':'))) = ""
            then "0000"
            else String.mk (w.classTime.toList.filter (fun c => ¬(c = ':')))) ++
          "_" ++ "workout" ++ ".tcx") := by
  have hlist : (sanitizeFilename name).toList =
      ((trimDashes (collapseDashes (replaceInvalid name.toList))).map
        toLowerChar).take 50 := by
    simp only [sanitizeFilename, sanitizeList, String.toList]
  refine ⟨?_, ?_, ?_, ?_, ?_, ?_⟩
  · intro c hc
    rw [hlist] at hc
    have hc2 := List.mem_of_mem_take hc
    simp only [List.mem_map] at hc2
    obtain ⟨d, hd, rfl⟩ := hc2
    have hd2 : d ∈ replaceInvalid name.toList :=
      mem_collapseDashes _ (mem_trimDashes hd)
    exact ⟨toLowerChar_not_invalid (mem_replaceInvalid hd2),
      toLowerChar_not_upper d⟩
  · rw [hlist]
    have h1 : hasDD (collapseDashes (replaceInvalid name.toList)) = false :=
      collapseDashes_notDD _
    have h2 := notDD_of_infix (trimDashes_inf _) h1
    have h3 : hasDD ((trimDashes (collapseDashes
        (replaceInvalid name.toList))).map toLowerChar) = false := by
      simp only [hasDD, decide_eq_false_iff_not] at h2 ⊢
      exact fun hi => h2 (infix_dd_map_toLower hi)
    exact notDD_of_infix ((List.take_prefix 50 _).isInfix) h3
  · rw [hlist, List.length_take]
    omega
  · intro c hc
    rw [hlist] at hc
    have hc2 := head?_take_fifty hc
    rw [List.head?_map] at hc2
    rcases hh : (trimDashes (collapseDashes
        (replaceInvalid name.toList))).head? with _ | d
    · rw [hh] at hc2; simp at hc2
    · rw [hh] at hc2
      simp only [Option.map_some', Option.some.injEq] at hc2
      subst hc2
      intro hdash
      exact trimDashes_head hh (toLowerChar_eq_dash hdash)
  · intro c hc
    rw [List.getLast?_map] at hc
    rcases hh : (trimDashes (collapseDashes
        (replaceInvalid name.toList))).getLast? with _ | d
    · rw [hh] at hc; simp at hc
    · rw [hh] at hc
      simp only [Option.map_some', Option.some.injEq] at hc
      subst hc
      intro hdash
      exact trimDashes_getLast hh (toLowerChar_eq_dash hdash)
  · intro hempty
    unfold generateFilename
    rw [hempty]
    simp

/-- Witness for C9: the name and workout are concrete; the head-of-slug and
empty-slug hypotheses are discharged on them. -/
theorem filename_sanitization_witness :
    ((sanitizeFilename "My *WOD*: 21-15--9?").toList.head? = some 'm') ∧
    ('m' ≠ '-') ∧
    (sanitizeFilename "///" = "" ∧
      generateFilename
        { id := "w", name := "///", dateStr := "2024-01-01",
          classTime := "18:30", startEpoch := 0, durationSec := 0 } =
        "2024-01-01" ++ "_" ++
          (if String.mk (("18:30" : String).toList.filter
              (fun c => ¬(c = ':'))) = ""
            then "0000"
            else String.mk (("18:30" : String).toList.filter
              (fun c => ¬(c = ':')))) ++
          "_" ++ "workout" ++ ".tcx") := by
  refine ⟨by decide, ?_, by decide, ?_⟩
  · exact (filename_sanitization "My *WOD*: 21-15--9?"
      { id := "w", name := "", dateStr := "", classTime := "",
        startEpoch := 0, durationSec := 0 }).2.2.2.1 'm' (by decide)
  · exact (filename_sanitization "x"
      { id := "w", name := "///", dateStr := "2024-01-01",
        classTime := "18:30", startEpoch := 0, durationSec := 0 }).2.2.2.2.2
      (by decide)

end AimharderSync

namespace AimharderSync

/-! ## Score parsing (src/unnamed/part_004 `parseScore` lines 1258-1296).
The four regular expressions are realized as explicit matchers with the same
match and capture semantics on the strings the code passes them. -/

/-- RE2 `\s`: space, tab, newline, form feed, carriage return. -/
def isSpaceRE (c : Char) : Bool :=
  c = ' ' ∨ c = '\t' ∨ c = '\n' ∨ c = '\x0c' ∨ c = '\r'

/-- ASCII white space trimmed by Go `strings.TrimSpace`. -/
def isSpaceGo (c : Char) : Bool :=
  c = ' ' ∨ c = '\t' ∨ c = '\n' ∨ c = '\x0b' ∨ c = '\x0c' ∨ c = '\r'

/-- Go `strings.TrimSpace` (ASCII fragment). -/
def trimSpace (l : List Char) : List Char :=
  ((l.dropWhile isSpaceGo).reverse.dropWhile isSpaceGo).reverse

/-- Numeric value of a digit run (`strconv.Atoi` on a matched `\d+`). -/
def digitsToNat (l : List Char) : Nat :=
  l.foldl (fun acc c => acc * 10 + (c.toNat - 48)) 0

/-- The anchored time pattern of `parseScore`:
`^(\d{1,2}):(\d{2})(?::(\d{2}))?$`.  Returns the three capture groups. -/
def matchTime (l : List Char) : Option (Nat × Nat × Option Nat) :=
  let ds := l.takeWhile Char.isDigit
  if 1 ≤ ds.length ∧ ds.length ≤ 2 then
    match l.drop ds.length with
    | ':' :: a :: b :: rest =>
        if a.isDigit ∧ b.isDigit then
          match rest with
          | [] => some (digitsToNat ds, digitsToNat [a, b], none)
          | ':' :: c1 :: c2 :: [] =>
              if c1.isDigit ∧ c2.isDigit then
                some (digitsToNat ds, digitsToNat [a, b],
                  some (digitsToNat [c1, c2]))
              else none
          | _ => none
        else none
    | _ => none
  else none

/-- Attempt of the unanchored `(\d+)\s*\+\s*(\d+)` pattern at the current
position: a non-empty digit run, optional spaces, `+`, optional spaces,
non-empty digit run. -/
def tryPlusAt (l : List Char) : Option (Nat × Nat) :=
  let ds := l.takeWhile Char.isDigit
  if ds.isEmpty then none
  else
    match ((l.drop ds.length).dropWhile isSpaceRE) with
    | '+' :: r3 =>
        let ds2 := (r3.dropWhile isSpaceRE).takeWhile Char.isDigit
        if ds2.isEmpty then none
        else some (digitsToNat ds, digitsToNat ds2)
    | _ => none

/-- Leftmost match of `(\d+)\s*\+\s*(\d+)`
(`roundsRegex.FindStringSubmatch`). -/
def findPlus : List Char → Option (Nat × Nat)
  | [] => none
  | c :: rest =>
      match tryPlusAt (c :: rest) with
      | some r => some r
      | none => findPlus rest

/-- The anchored `^(\d+)\s*(?:rounds?|rondas?)?$` pattern, applied to the
lowercased score. -/
def matchJustRounds (l : List Char) : Option Nat :=
  let ds := l.takeWhile Char.isDigit
  if ds.isEmpty then none
  else
    let r := (l.drop ds.length).dropWhile isSpaceRE
    if r = [] ∨ r = "round".toList ∨ r = "rounds".toList ∨
        r = "ronda".toList ∨ r = "rondas".toList then
      some (digitsToNat ds)
    else none

/-- The anchored `^(\d+(?:\.\d+)?)\s*(?:kg|lbs?)?$` pattern, applied to the
lowercased score; the captured number is parsed exactly over `ℚ`
(`strconv.ParseFloat` in the source). -/
def matchWeight (l : List Char) : Option ℚ :=
  let ds := l.takeWhile Char.isDigit
  if ds.isEmpty then none
  else
    let afterInt := l.drop ds.length
    let parsed : Option (ℚ × List Char) :=
      match afterInt with
      | '.' :: r2 =>
          let fs := r2.takeWhile Char.isDigit
          if fs.isEmpty then none
          else some ((digitsToNat ds : ℚ) +
            (digitsToNat fs : ℚ) / ((10 : ℚ) ^ fs.length),
            r2.drop fs.length)
      | _ => some ((digitsToNat ds : ℚ), afterInt)
    match parsed with
    | none => none
    | some (v, rest) =>
        let r := rest.dropWhile isSpaceRE
        if r = [] ∨ r = "kg".toList ∨ r = "lb".toList ∨ r = "lbs".toList
        then some v
        else none

/-- `parseScore`: trim, then try the four patterns in order; the first match
returns immediately, setting only its own fields; no match leaves the result
unchanged. -/
def parseScore (score : String) (result : WorkoutResult) : WorkoutResult :=
  let l := trimSpace score.toList
  match matchTime l with
  | some (a, b, some c) =>
      { result with time := some (a * 3600 + b * 60 + c) }
  | some (a, b, none) => { result with time := some (a * 60 + b) }
  | none =>
  match findPlus l with
  | some (r1, r2) =>
      { result with rounds := (r1 : Int), reps := (r2 : Int) }
  | none =>
  match matchJustRounds (l.map toLowerChar) with
  | some r1 => { result with rounds := (r1 : Int) }
  | none =>
  match matchWeight (l.map toLowerChar) with
  | some v => { result with weight := v }
  | none => result

end AimharderSync

namespace AimharderSync

/-- **C6** — Score parsing precedence: the four patterns are tried in order —
time, rounds+reps, bare rounds, weight — the first match alone sets its
fields, and no match leaves the result unchanged; in particular `"21:34"`
parses as 21 minutes 34 seconds, `"10+5"` as rounds 10 and reps 5, `"20"` as
rounds 20, and `"85kg"` as weight 85. -/
theorem score_parsing_precedence :
    (∀ r : WorkoutResult,
      parseScore "21:34" r = { r with time := some (21 * 60 + 34) }) ∧
    (∀ r : WorkoutResult,
      parseScore "10+5" r = { r with rounds := 10, reps := 5 }) ∧
    (∀ r : WorkoutResult, parseScore "20" r = { r with rounds := 20 }) ∧
    (∀ r : WorkoutResult, parseScore "85kg" r = { r with weight := 85 }) ∧
    (∀ (s : String) (r : WorkoutResult) (a b : Nat),
      matchTime (trimSpace s.toList) = some (a, b, none) →
      parseScore s r = { r with time := some (a * 60 + b) }) ∧
    (∀ (s : String) (r : WorkoutResult),
      matchTime (trimSpace s.toList) = none →
      findPlus (trimSpace s.toList) = none →
      matchJustRounds ((trimSpace s.toList).map toLowerChar) = none →
      matchWeight ((trimSpace s.toList).map toLowerChar) = none →
      parseScore s r = r) := by
  refine ⟨?_, ?_, ?_, ?_, ?_, ?_⟩
  · intro r
    have h1 : matchTime (trimSpace ("21:34".toList)) = some (21, 34, none) :=
      by decide
    simp only [parseScore]
    rw [h1]
  · intro r
    have h1 : matchTime (trimSpace ("10+5".toList)) = none := by decide
    have h2 : findPlus (trimSpace ("10+5".toList)) = some (10, 5) := by decide
    simp only [parseScore]
    rw [h1, h2]
    rfl
  · intro r
    have h1 : matchTime (trimSpace ("20".toList)) = none := by decide
    have h2 : findPlus (trimSpace ("20".toList)) = none := by decide
    have h3 : matchJustRounds ((trimSpace ("20".toList)).map toLowerChar) =
        some 20 := by decide
    simp only [parseScore]
    rw [h1, h2, h3]
    rfl
  · intro r
    have h1 : matchTime (trimSpace ("85kg".toList)) = none := by decide
    have h2 : findPlus (trimSpace ("85kg".toList)) = none := by decide
    have h3 : matchJustRounds ((trimSpace ("85kg".toList)).map toLowerChar) =
        none := by decide
    have h4 : matchWeight ((trimSpace ("85kg".toList)).map toLowerChar) =
        some 85 := by decide
    simp only [parseScore]
    rw [h1, h2, h3, h4]
  · intro s r a b h
    simp only [parseScore]
    rw [h]
  · intro s r h1 h2 h3 h4
    simp only [parseScore]
    rw [h1, h2, h3, h4]

/-- Witness for C6: a non-matching score leaves the result unchanged, and a
matching MM:SS score sets only the time. -/
theorem score_parsing_precedence_witness :
    (matchTime (trimSpace ("PR day!".toList)) = none ∧
      findPlus (trimSpace ("PR day!".toList)) = none ∧
      matchJustRounds ((trimSpace ("PR day!".toList)).map toLowerChar) =
        none ∧
      matchWeight ((trimSpace ("PR day!".toList)).map toLowerChar) = none) ∧
    parseScore "PR day!" {} = ({} : WorkoutResult) ∧
    (matchTime (trimSpace ("3:07".toList)) = some (3, 7, none) ∧
      parseScore "3:07" {} = { ({} : WorkoutResult) with
        time := some (3 * 60 + 7) }) := by
  refine ⟨⟨by decide, by decide, by decide, by decide⟩, ?_, by decide, ?_⟩
  · exact score_parsing_precedence.2.2.2.2.2 "PR day!" {} (by decide)
      (by decide) (by decide) (by decide)
  · exact score_parsing_precedence.2.2.2.2.1 "3:07" {} 3 7 (by decide)

end AimharderSync

namespace AimharderSync

/-! ## Activity pagination (src/unnamed/part_004 `fetchAllActivities` lines
403-464).  The page payload type is a parameter; the collaborator is the
function `client` from the `loadAfter` watermark to one page (`ok` is
`resp.StatusCode == http.StatusOK`; transport errors, which abort the whole
call in the source, are outside the loop property claimed).  The unbounded
`for` loop is given explicit fuel; `none` marks fuel exhaustion, so a `some`
result is a terminating run of the loop. -/

structure Page (α : Type) where
  ok : Bool
  items : List α
  next : Int
deriving DecidableEq, Repr

/-- The fetch loop body: break on a non-OK status, an empty page, or a
watermark that is zero or does not advance; otherwise append and continue
from the new watermark.  The second component counts pages fetched. -/
def fetchLoop {α : Type} (client : Int → Page α) :
    Nat → Int → List α → Nat → Option (List α × Nat)
  | 0, _, _, _ => none
  | fuel + 1, lastLoaded, acc, pages =>
      let p := client lastLoaded
      if p.ok = false then some (acc, pages + 1)
      else if p.items.isEmpty then some (acc, pages + 1)
      else if p.next = 0 ∨ p.next = lastLoaded then
        some (acc ++ p.items, pages + 1)
      else fetchLoop client fuel p.next (acc ++ p.items) (pages + 1)

/-- `fetchAllActivities`: run the loop from watermark 0. -/
def fetchAllActivities {α : Type} (client : Int → Page α) (fuel : Nat) :
    Option (List α × Nat) :=
  fetchLoop client fuel 0 [] 0

/-- The sequence of watermarks the loop would visit from a given start. -/
def cursorTraceFrom {α : Type} (client : Int → Page α) (start : Int) :
    Nat → Int
  | 0 => start
  | n + 1 => (client (cursorTraceFrom client start n)).next

/-- The loop's break condition holds at step `n` of the trace. -/
def stopsAtFrom {α : Type} (client : Int → Page α) (start : Int) (n : Nat) :
    Prop :=
  (client (cursorTraceFrom client start n)).ok = false ∨
  (client (cursorTraceFrom client start n)).items = [] ∨
  (client (cursorTraceFrom client start n)).next = 0 ∨
  (client (cursorTraceFrom client start n)).next = cursorTraceFrom client start n

theorem cursorTraceFrom_shift {α : Type} (client : Int → Page α) :
    ∀ (n : Nat) (start : Int),
      cursorTraceFrom client start (n + 1) =
        cursorTraceFrom client ((client start).next) n
  | 0, start => rfl
  | n + 1, start => by
      rw [cursorTraceFrom]
      rw [cursorTraceFrom_shift client n start]
      rfl

theorem fetchLoop_total {α : Type} (client : Int → Page α) :
    ∀ (n fuel : Nat) (last : Int) (acc : List α) (pages : Nat),
      n < fuel → stopsAtFrom client last n →
      (fetchLoop client fuel last acc pages).isSome
  | 0, fuel, last, acc, pages, hfuel, hstop => by
      match fuel, hfuel with
      | fuel + 1, _ =>
          rw [fetchLoop]
          rcases hstop with h | h | h | h <;>
            simp only [cursorTraceFrom] at h <;> split_ifs <;>
            simp_all [List.isEmpty_iff]
  | n + 1, fuel, last, acc, pages, hfuel, hstop => by
      match fuel, hfuel with
      | fuel + 1, hfuel =>
          rw [fetchLoop]
          split_ifs
          · simp
          · simp
          · simp
          · exact fetchLoop_total client n fuel (client last).next _ _
              (by omega)
              (by
                unfold stopsAtFrom
                rw [← cursorTraceFrom_shift client n last]
                exact hstop)

end AimharderSync

namespace AimharderSync

/-- **C7** — Pagination termination: whenever the watermark trace reaches a
page with a non-OK status, zero items, or a watermark that is zero or does
not advance, the fetch loop terminates (with any fuel beyond that point, so
the unbounded source loop halts); in particular a client whose first page is
non-empty but returns a non-advancing watermark causes exactly one page to
be fetched, returning just that page's items. -/
theorem pagination_termination {α : Type} (client : Int → Page α)
    (n fuel : Nat) (hn : n < fuel) (hstop : stopsAtFrom client 0 n) :
    (fetchAllActivities client fuel).isSome ∧
    ((client 0).ok = true → (client 0).items ≠ [] → (client 0).next = 0 →
      fetchAllActivities client fuel = some ((client 0).items, 1)) := by
  constructor
  · exact fetchLoop_total client n fuel 0 [] 0 hn hstop
  · intro hok hitems hnext
    match fuel, hn with
    | fuel + 1, _ =>
        unfold fetchAllActivities fetchLoop
        rw [if_neg (by simp [hok]),
          if_neg (by simpa using List.isEmpty_iff.not.mpr hitems),
          if_pos (Or.inl hnext)]
        simp

/-- Witness for C7: a client that always returns one item and watermark 0
fetches exactly one page. -/
theorem pagination_termination_witness :
    ((0 : Nat) < 5 ∧
      stopsAtFrom (fun _ => { ok := true, items := [()], next := 0 }) 0 0) ∧
    (fetchAllActivities
        (fun _ => ({ ok := true, items := [()], next := 0 } : Page Unit))
        5).isSome ∧
    fetchAllActivities
        (fun _ => ({ ok := true, items := [()], next := 0 } : Page Unit))
        5 = some ([()], 1) := by
  have h := pagination_termination
    (fun _ => ({ ok := true, items := [()], next := 0 } : Page Unit)) 0 5
    (by omega) (by right; right; left; rfl)
  exact ⟨⟨by omega, by right; right; left; rfl⟩, h.1,
    h.2 rfl (by simp) rfl⟩

end AimharderSync

namespace AimharderSync

/-! ## Section title inference (src/unnamed/part_004 `parseSectionTitle`
lines 1015-1078, invoked at line 648 only when the explicit title is empty).
The case-insensitive benchmark patterns are realized as explicit matchers
returning the matched substring (the source uppercases `matches[1]`). -/

/-- Go `strings.ReplaceAll(notes, "<br>", "\n")`.  (The source first
computes a `"<br />"` replacement and immediately overwrites it, reading
from `notes` again — that first replacement is dead and is not modelled.) -/
def replaceBr : List Char → List Char
  | '<' :: 'b' :: 'r' :: '>' :: rest => '\n' :: replaceBr rest
  | c :: rest => c :: replaceBr rest
  | [] => []

/-- ASCII restriction of Go `strings.ToUpper`. -/
def toUpperChar (c : Char) : Char :=
  if 97 ≤ c.toNat ∧ c.toNat ≤ 122 then Char.ofNat (c.toNat - 32) else c

/-- Case-insensitive literal match at the current position, returning the
matched substring. -/
def matchLitAt (pat l : List Char) : Option (List Char) :=
  let m := l.take pat.length
  if m.length = pat.length ∧
      (m.zip pat).all (fun cd => toLowerChar cd.1 = toLowerChar cd.2) then
    some m
  else none

/-- Leftmost case-insensitive occurrence of a literal pattern
(`regexp.FindStringSubmatch` with an `(?i)` literal). -/
def findLit (pat : List Char) : List Char → Option (List Char)
  | [] => none
  | c :: rest =>
      match matchLitAt pat (c :: rest) with
      | some m => some m
      | none => findLit pat rest

/-- Case-insensitive prefix strip: consumed characters and remainder. -/
def stripCI (pat l : List Char) : Option (List Char × List Char) :=
  match matchLitAt pat l with
  | some m => some (m, l.drop pat.length)
  | none => none

/-- `\s+`: one or more whitespace characters. -/
def stripWS1 (l : List Char) : Option (List Char × List Char) :=
  let w := l.takeWhile isSpaceRE
  if w.isEmpty then none else some (w, l.drop w.length)

/-- The pattern `(?i)(12\s+DAYS?\s+OF\s+CHRISTMAS)` at the current
position. -/
def match12DaysAt (l : List Char) : Option (List Char) := do
  let (a, r1) ← stripCI "12".toList l
  let (b, r2) ← stripWS1 r1
  let (c0, r3) ← stripCI "day".toList r2
  let (sOpt, r4) :=
    match r3 with
    | x :: rest => if toLowerChar x = 's' then ([x], rest) else ([], r3)
    | [] => ([], r3)
  let (d, r5) ← stripWS1 r4
  let (e, r6) ← stripCI "of".toList r5
  let (f, r7) ← stripWS1 r6
  let (g, _) ← stripCI "christmas".toList r7
  pure (a ++ b ++ c0 ++ sOpt ++ d ++ e ++ f ++ g)

/-- Leftmost occurrence of the 12-days pattern. -/
def find12Days : List Char → Option (List Char)
  | [] => none
  | c :: rest =>
      match match12DaysAt (c :: rest) with
      | some m => some m
      | none => find12Days rest

/-- The literal benchmark names, in the source's pattern order. -/
def benchLits : List (List Char) :=
  ["murph".toList, "fran".toList, "helen".toList, "grace".toList,
   "cindy".toList, "annie".toList, "diane".toList, "elizabeth".toList,
   "jackie".toList, "karen".toList, "mary".toList, "isabel".toList,
   "nancy".toList]

/-- First literal pattern (in list order) with an occurrence. -/
def firstLit : List (List Char) → List Char → Option (List Char)
  | [], _ => none
  | p :: ps, l =>
      match findLit p l with
      | some m => some m
      | none => firstLit ps l

/-- The benchmark-name search of `parseSectionTitle`: the patterns are tried
in order (12-days first, then the named workouts), first match wins. -/
def benchFind (l : List Char) : Option (List Char) :=
  match find12Days l with
  | some m => some m
  | none => firstLit benchLits l

/-- The `typeNames` lookup table (lines 1050-1063). -/
def typeNames (t : Int) : Option String :=
  if t = 1 then some "Strength"
  else if t = 2 then some "AMRAP"
  else if t = 3 then some "EMOM"
  else if t = 4 then some "Tabata"
  else if t = 5 then some "For Time"
  else if t = 6 then some "Max Reps"
  else if t = 7 then some "Max Weight"
  else if t = 8 then some "Chipper"
  else if t = 9 then some "RFT"
  else if t = 10 then some "Ladder"
  else if t = 11 then some "For Time"
  else if t = 12 then some "YGIG"
  else none

/-- ASCII 39, the apostrophe of the `"%d' %s"` format string. -/
def apostropheChar : Char := Char.ofNat 39

/-- `fmt.Sprintf("%d' %s", timecap, name)`. -/
def capTypeLabel (timecap : Int) (nm : String) : String :=
  toString timecap ++ String.singleton apostropheChar ++ " " ++ nm

/-- `parseSectionTitle`: benchmark name from cleaned notes (uppercased),
else type label (cap-prefixed for types 2, 5, 11), else `"<cap> min WOD"`,
else `"WOD"`. -/
def parseSectionTitle (notes : String) (sectionType timecap : Int) : String :=
  let step1 : Option String :=
    if notes ≠ "" then
      match benchFind (trimSpace (replaceBr notes.toList)) with
      | some m => some (String.mk (m.map toUpperChar))
      | none => none
    else none
  match step1 with
  | some t => t
  | none =>
      match typeNames sectionType with
      | some nm =>
          if timecap > 0 ∧
              (sectionType = 2 ∨ sectionType = 5 ∨ sectionType = 11) then
            capTypeLabel timecap nm
          else nm
      | none =>
          if timecap > 0 then toString timecap ++ " min WOD" else "WOD"

end AimharderSync

namespace AimharderSync

/-- **C8** — Section title inference cascade: with no explicit title, (1) a
canonical benchmark name found in the cleaned notes is returned uppercased;
(2) otherwise a known type code maps to its generic label, prefixed with the
time-cap for the AMRAP/ForTime-like codes 2, 5 and 11; (3) otherwise a known
positive cap yields `"<cap> min WOD"`; (4) otherwise the literal `"WOD"`.
In particular notes `"murph"` with the unrecognized type code 99 infer
`"MURPH"` by benchmark matching. -/
theorem section_title_cascade :
    parseSectionTitle "murph" 99 0 = "MURPH" ∧
    (∀ (notes : String) (t cap : Int) (m : List Char),
      notes ≠ "" →
      benchFind (trimSpace (replaceBr notes.toList)) = some m →
      parseSectionTitle notes t cap = String.mk (m.map toUpperChar)) ∧
    (∀ (notes : String) (t cap : Int) (nm : String),
      (notes = "" ∨ benchFind (trimSpace (replaceBr notes.toList)) = none) →
      typeNames t = some nm →
      parseSectionTitle notes t cap =
        if cap > 0 ∧ (t = 2 ∨ t = 5 ∨ t = 11) then capTypeLabel cap nm
        else nm) ∧
    (∀ (notes : String) (t cap : Int),
      (notes = "" ∨ benchFind (trimSpace (replaceBr notes.toList)) = none) →
      typeNames t = none →
      parseSectionTitle notes t cap =
        if cap > 0 then toString cap ++ " min WOD" else "WOD") := by
  have hstep1_none : ∀ (notes : String) (t cap : Int),
      (notes = "" ∨ benchFind (trimSpace (replaceBr notes.toList)) = none) →
      parseSectionTitle notes t cap =
        (match typeNames t with
        | some nm =>
            if cap > 0 ∧ (t = 2 ∨ t = 5 ∨ t = 11) then capTypeLabel cap nm
            else nm
        | none =>
            if cap > 0 then toString cap ++ " min WOD" else "WOD") := by
    intro notes t cap h
    rcases h with he | hf
    · subst he
      simp only [parseSectionTitle]
      rw [if_neg (by simp)]
    · by_cases hne : notes = ""
      · subst hne
        simp only [parseSectionTitle]
        rw [if_neg (by simp)]
      · simp only [parseSectionTitle]
        rw [if_pos hne, hf]
  refine ⟨by decide, ?_, ?_, ?_⟩
  · intro notes t cap m hne hfind
    simp only [parseSectionTitle]
    rw [if_pos hne, hfind]
  · intro notes t cap nm h htype
    rw [hstep1_none notes t cap h, htype]
  · intro notes t cap h htype
    rw [hstep1_none notes t cap h, htype]

/-- Witness for C8: a concrete run of each cascade stage with its
hypotheses discharged. -/
theorem section_title_cascade_witness :
    (("go murph go" : String) ≠ "" ∧
      benchFind (trimSpace (replaceBr ("go murph go" : String).toList)) =
        some ("murph".toList) ∧
      parseSectionTitle "go murph go" 3 0 =
        String.mk ("murph".toList.map toUpperChar)) ∧
    (benchFind (trimSpace (replaceBr ("3 rounds" : String).toList)) = none ∧
      typeNames 2 = some "AMRAP" ∧
      parseSectionTitle "3 rounds" 2 20 =
        (if (20 : Int) > 0 ∧ ((2 : Int) = 2 ∨ (2 : Int) = 5 ∨ (2 : Int) = 11)
          then capTypeLabel 20 "AMRAP" else "AMRAP")) ∧
    (typeNames 99 = none ∧
      parseSectionTitle "" 99 0 =
        (if (0 : Int) > 0 then toString (0 : Int) ++ " min WOD"
          else "WOD")) := by
  refine ⟨⟨by decide, by decide, ?_⟩, ⟨by decide, by decide, ?_⟩,
    ⟨by decide, ?_⟩⟩
  · exact section_title_cascade.2.1 "go murph go" 3 0 "murph".toList
      (by decide) (by decide)
  · exact section_title_cascade.2.2.1 "3 rounds" 2 20 "AMRAP"
      (Or.inr (by decide)) (by decide)
  · exact section_title_cascade.2.2.2 "" 99 0 (Or.inl rfl) (by decide)

end AimharderSync
